import Mathlib

/-!
Verification of the optisystemize document pipeline.

The repository contains two variants of the extraction / organize pipeline:
`src/coworker` (the `cli.py` + `core/` package) and `terminal_coworker`.
This file gives a shallow embedding of the pieces of both variants that the
verified properties are about: the review policy, the extraction cache, the
retry loop, the organizer (destination computation, collision handling,
dry-run), the undo engine, the run-command exit gates, and the keyword-call
convention that the organize stage uses.

Conventions of the embedding:
- Python floats are modelled as rationals (`ℚ`).
- The filesystem is modelled as an association list from paths to a content
  identifier (`ℕ`); a byte-identical restore is equality of that identifier.
- Python truthiness of optional fields is modelled explicitly (`None`, the
  empty string, and `0` are falsy).
- The external inference service (the Gemini SDK call) is opaque: each model
  takes the outcome of the service call as a parameter.
-/

set_option maxHeartbeats 1000000
set_option maxRecDepth 8192

namespace Coworker

/-- Shallow embedding of `coworker.core.models.ExtractedData` (pydantic model,
`src/coworker/core/models.py` lines 46-67).  Float fields are rationals; the
pure-metrics fields `processing_time` and `token_usage` and the `lines` list
never influence the verified behaviour and are omitted. -/
structure ExtractedData where
  doc_type : String
  doc_date : Option String := none
  merchant : Option String := none
  total_amount : Option ℚ := none
  currency : Option String := none
  summary : Option String := none
  confidence : ℚ := 0
  uncertain_fields : List String := []
  is_review_needed : Bool := false
  review_reason : Option String := none
deriving Repr, DecidableEq

/-- Python truthiness of an optional string (`not x` in the source):
`None` and the empty string are falsy. -/
def pyStrTruthy : Option String → Bool
  | none => false
  | some s => !s.isEmpty

/-- Python truthiness of an optional number (`not x` in the source):
`None` and `0` are falsy. -/
def pyNumTruthy : Option ℚ → Bool
  | none => false
  | some a => a != 0

/-- The `reasons` list collected by `Extractor.extract_file`
(`src/coworker/core/extract.py` lines 152-154): both checks always run, so
the reasons are accumulated rather than short-circuited. -/
def reviewReasons (e : ExtractedData) : List String :=
  (if !pyStrTruthy e.doc_date then ["Missing Date"] else []) ++
  (if !pyNumTruthy e.total_amount then ["Missing Amount"] else [])

/-- Lines 156-159 of `src/coworker/core/extract.py`: when any reason was
collected, clamp confidence to at most 0.6, set the review flag, and set the
comma-joined reason string. -/
def capStage (e : ExtractedData) : ExtractedData :=
  if (reviewReasons e).isEmpty then e
  else
    { e with
      confidence := min e.confidence (6/10),
      is_review_needed := true,
      review_reason := some (String.intercalate ", " (reviewReasons e)) }

/-- Lines 161-164 of `src/coworker/core/extract.py`: when the (possibly
already capped) confidence is below 0.7, set the review flag, and set the
reason to "Low Confidence" only when no reason is present yet. -/
def lowConfStage (e1 : ExtractedData) : ExtractedData :=
  if e1.confidence < 7/10 then
    { e1 with
      is_review_needed := true,
      review_reason :=
        if !pyStrTruthy e1.review_reason then some "Low Confidence"
        else e1.review_reason }
  else e1

/-- The whole review post-processing block of `Extractor.extract_file`
(`src/coworker/core/extract.py` lines 151-164). -/
def postProcessReview (e : ExtractedData) : ExtractedData :=
  lowConfStage (capStage e)

theorem lowConfStage_of_lt (e1 : ExtractedData) (h : e1.confidence < 7/10) :
    (lowConfStage e1).is_review_needed = true ∧
    (lowConfStage e1).review_reason =
      (if !pyStrTruthy e1.review_reason then some "Low Confidence"
       else e1.review_reason) ∧
    (lowConfStage e1).confidence = e1.confidence := by
  simp [lowConfStage, h]

theorem capStage_of_reasons (e : ExtractedData) (l : List String)
    (hl : reviewReasons e = l) (hne : l ≠ []) :
    capStage e =
      { e with
        confidence := min e.confidence (6/10),
        is_review_needed := true,
        review_reason := some (String.intercalate ", " l) } := by
  rw [capStage, hl]
  cases l with
  | nil => exact absurd rfl hne
  | cons a t => rfl

theorem capStage_confidence_lt (e : ExtractedData) (hne : reviewReasons e ≠ []) :
    (capStage e).confidence < 7/10 := by
  rw [capStage_of_reasons e (reviewReasons e) rfl hne]
  exact lt_of_le_of_lt (min_le_right _ _) (by norm_num)

theorem capped_review_reason (e : ExtractedData) (c : ℚ) (r : Option String) :
    ExtractedData.review_reason
      { e with
        confidence := c,
        is_review_needed := true,
        review_reason := r } = r := rfl

end Coworker

namespace Coworker

/-- C1: the review policy appends "Missing Date" when the date is missing and
"Missing Amount" when the total amount is missing (comma-joined, never
short-circuited); if either was appended, confidence is capped at 0.6 (never
raised) and review-needed is set; afterwards, a resulting confidence below
0.7 sets review-needed, and the reason becomes "Low Confidence" only when no
reason has been set yet.  A result with a missing date and confidence 0.9
ends with review-needed true and reason "Missing Date". -/
theorem C1_review_policy :
    (∀ e : ExtractedData, pyStrTruthy e.doc_date = false →
      pyNumTruthy e.total_amount = true →
        (postProcessReview e).review_reason = some "Missing Date") ∧
    (∀ e : ExtractedData, pyStrTruthy e.doc_date = true →
      pyNumTruthy e.total_amount = false →
        (postProcessReview e).review_reason = some "Missing Amount") ∧
    (∀ e : ExtractedData, pyStrTruthy e.doc_date = false →
      pyNumTruthy e.total_amount = false →
        (postProcessReview e).review_reason =
          some "Missing Date, Missing Amount") ∧
    (∀ e : ExtractedData,
      (pyStrTruthy e.doc_date = false ∨ pyNumTruthy e.total_amount = false) →
        (postProcessReview e).is_review_needed = true ∧
        (postProcessReview e).confidence ≤ 6/10 ∧
        (postProcessReview e).confidence ≤ e.confidence) ∧
    (∀ e : ExtractedData, pyStrTruthy e.doc_date = true →
      pyNumTruthy e.total_amount = true → e.confidence < 7/10 →
        (postProcessReview e).is_review_needed = true ∧
        (pyStrTruthy e.review_reason = false →
          (postProcessReview e).review_reason = some "Low Confidence") ∧
        (pyStrTruthy e.review_reason = true →
          (postProcessReview e).review_reason = e.review_reason)) ∧
    (∀ e : ExtractedData, e.doc_date = none → e.confidence = 9/10 →
      pyNumTruthy e.total_amount = true →
        (postProcessReview e).is_review_needed = true ∧
        (postProcessReview e).review_reason = some "Missing Date") := by
  refine ⟨?_, ?_, ?_, ?_, ?_, ?_⟩
  · intro e hd ha
    have hr : reviewReasons e = ["Missing Date"] := by
      simp [reviewReasons, hd, ha]
    have hcap := capStage_of_reasons e ["Missing Date"] hr (by simp)
    have hlt : (capStage e).confidence < 7/10 :=
      capStage_confidence_lt e (by simp [hr])
    show (lowConfStage (capStage e)).review_reason = some "Missing Date"
    rw [(lowConfStage_of_lt _ hlt).2.1, hcap, capped_review_reason]
    decide
  · intro e hd ha
    have hr : reviewReasons e = ["Missing Amount"] := by
      simp [reviewReasons, hd, ha]
    have hcap := capStage_of_reasons e ["Missing Amount"] hr (by simp)
    have hlt : (capStage e).confidence < 7/10 :=
      capStage_confidence_lt e (by simp [hr])
    show (lowConfStage (capStage e)).review_reason = some "Missing Amount"
    rw [(lowConfStage_of_lt _ hlt).2.1, hcap, capped_review_reason]
    decide
  · intro e hd ha
    have hr : reviewReasons e = ["Missing Date", "Missing Amount"] := by
      simp [reviewReasons, hd, ha]
    have hcap := capStage_of_reasons e ["Missing Date", "Missing Amount"] hr (by simp)
    have hlt : (capStage e).confidence < 7/10 :=
      capStage_confidence_lt e (by simp [hr])
    show (lowConfStage (capStage e)).review_reason =
      some "Missing Date, Missing Amount"
    rw [(lowConfStage_of_lt _ hlt).2.1, hcap, capped_review_reason]
    decide
  · intro e h
    have hne : reviewReasons e ≠ [] := by
      rcases h with h | h <;> simp [reviewReasons, h]
    have hcap := capStage_of_reasons e (reviewReasons e) rfl hne
    have hlt : (capStage e).confidence < 7/10 := capStage_confidence_lt e hne
    obtain ⟨h1, h2, h3⟩ := lowConfStage_of_lt _ hlt
    refine ⟨h1, ?_, ?_⟩
    · show (lowConfStage (capStage e)).confidence ≤ 6/10
      rw [h3, hcap]
      exact min_le_right _ _
    · show (lowConfStage (capStage e)).confidence ≤ e.confidence
      rw [h3, hcap]
      exact min_le_left _ _
  · intro e hd ha hc
    have hr : reviewReasons e = [] := by
      simp [reviewReasons, hd, ha]
    have hcap : capStage e = e := by
      rw [capStage, hr]
      rfl
    have hlt : (capStage e).confidence < 7/10 := by rw [hcap]; exact hc
    obtain ⟨h1, h2, h3⟩ := lowConfStage_of_lt _ hlt
    refine ⟨h1, ?_, ?_⟩
    · intro hrr
      show (lowConfStage (capStage e)).review_reason = some "Low Confidence"
      rw [h2, hcap, hrr]
      rfl
    · intro hrr
      show (lowConfStage (capStage e)).review_reason = e.review_reason
      rw [h2, hcap, hrr]
      rfl
  · intro e hd hc ha
    have hd2 : pyStrTruthy e.doc_date = false := by simp [pyStrTruthy, hd]
    have hr : reviewReasons e = ["Missing Date"] := by
      simp [reviewReasons, hd2, ha]
    have hcap := capStage_of_reasons e ["Missing Date"] hr (by simp)
    have hlt : (capStage e).confidence < 7/10 :=
      capStage_confidence_lt e (by simp [hr])
    obtain ⟨h1, h2, h3⟩ := lowConfStage_of_lt _ hlt
    refine ⟨h1, ?_⟩
    show (lowConfStage (capStage e)).review_reason = some "Missing Date"
    rw [h2, hcap, capped_review_reason]
    decide

/-- Scenario B input: an extraction result with a missing date and
confidence 0.9. -/
def scenarioB : ExtractedData :=
  { doc_type := "Receipt"
    doc_date := none
    total_amount := some 10
    confidence := 9/10 }

/-- Concrete instantiation of `C1_review_policy`: scenario B, a result with
`doc_date = none`, `total_amount = 10`, `confidence = 0.9` ends review-needed
with reason "Missing Date". -/
theorem C1_review_policy_witness :
    (postProcessReview scenarioB).is_review_needed = true ∧
    (postProcessReview scenarioB).review_reason = some "Missing Date" :=
  C1_review_policy.2.2.2.2.2 scenarioB rfl rfl (by decide)

/-- A persisted cache entry (the content of `<hash>.json`): either bytes that
parse and validate as a result, or bytes that fail to parse/validate. -/
inductive CacheEntry
  | valid (d : ExtractedData)
  | corrupt
deriving Repr, DecidableEq

/-- The cache directory, as an association list from content hash to the
entry stored in `<hash>.json`; a hash not in the list has no cache file. -/
abbrev Cache := List (String × CacheEntry)

/-- `cache_path.exists()` + reading `<hash>.json`. -/
def cacheGet (c : Cache) (h : String) : Option CacheEntry :=
  (c.find? (fun p => p.1 == h)).map (fun p => p.2)

/-- Writing `<hash>.json` with mode "w": overwrites any prior entry. -/
def cachePut (c : Cache) (h : String) (d : ExtractedData) : Cache :=
  (h, CacheEntry.valid d) :: c.filter (fun p => !(p.1 == h))

/-- Outcome of one extraction call: the returned value, the number of live
inference (service) calls made, and the cache directory afterwards. -/
structure ExtractOutcome where
  result : Option ExtractedData
  inference_calls : ℕ
  cache : Cache
deriving Repr, DecidableEq

/-- The cache/force skeleton of `Extractor.extract_file`
(`src/coworker/core/extract.py` lines 39-47 and 166-174).  The service round
trip is abstracted by `infer`: `some d` is the fully post-processed result of
a successful service call (the code writes it to the cache before returning
it), `none` is a service path that produced no result (the outer
`except Exception` handler turns any failure into a `None` return).  When
`force` is false and the cached entry parses, the cached result is returned
without entering the service path; a corrupt cache entry falls through to
re-extraction (`except Exception: pass` at line 46-47). -/
def extract_file (force : Bool) (h : String) (c : Cache)
    (infer : Option ExtractedData) : ExtractOutcome :=
  match force, cacheGet c h with
  | false, some (CacheEntry.valid d) => ⟨some d, 0, c⟩
  | _, _ =>
    match infer with
    | some d => ⟨some d, 1, cachePut c h d⟩
    | none => ⟨none, 1, c⟩

/-- Outcome of one `extract_data` call (terminal_coworker variant);
`Except.error` models a Python exception propagating to the caller. -/
structure TermExtractOutcome where
  result : Except String (Option ExtractedData)
  inference_calls : ℕ
  cache : Cache
deriving Repr

/-- The cache/force skeleton of `extract_data`
(`terminal_coworker/core/extract.py` lines 27-33 and 73-79).  The cache file
is read whenever it exists and `force` is false, with no exception handling
around `json.load`, so a corrupt entry raises to the caller.  The service
path is abstracted by `infer` as in `extract_file`. -/
def extract_data (force : Bool) (h : String) (c : Cache)
    (infer : Option ExtractedData) : TermExtractOutcome :=
  match force, cacheGet c h with
  | false, some (CacheEntry.valid d) => ⟨Except.ok (some d), 0, c⟩
  | false, some CacheEntry.corrupt => ⟨Except.error "json.JSONDecodeError", 0, c⟩
  | _, _ =>
    match infer with
    | some d => ⟨Except.ok (some d), 1, cachePut c h d⟩
    | none => ⟨Except.ok none, 1, c⟩

theorem cacheGet_cachePut (c : Cache) (h : String) (d : ExtractedData) :
    cacheGet (cachePut c h d) h = some (CacheEntry.valid d) := by
  unfold cacheGet cachePut
  rw [List.find?_cons_of_pos _ (by simp)]
  rfl

/-- A sample extraction result used to instantiate theorems. -/
def sampleDoc : ExtractedData := { doc_type := "Receipt", confidence := 4/5 }

/-- C2 counterexample: in the terminal_coworker variant, with `force = false`
and a cache entry for hash "h0" that fails to decode, `extract_data` raises
the decode error to the caller and attempts no re-extraction (zero inference
calls) — the claim says a parse failure is treated as a cache miss and never
propagated. -/
theorem C2_counterexample :
    (extract_data false "h0" [("h0", CacheEntry.corrupt)]
        (some sampleDoc)).result = Except.error "json.JSONDecodeError" ∧
    (extract_data false "h0" [("h0", CacheEntry.corrupt)]
        (some sampleDoc)).inference_calls = 0 :=
  ⟨rfl, rfl⟩

/-- C2 (amended): for every content hash, when `force` is false and a cached
entry exists and parses as a valid result, both variants return that cached
result with zero inference calls.  A cache entry that fails to parse is
treated as a cache miss only in the coworker variant (`Extractor.
extract_file`): re-extraction is attempted and the failure never reaches the
caller; in the terminal_coworker variant (`extract_data`) the decode failure
propagates to the caller and no re-extraction happens.  When `force` is true
both variants bypass the cache read, re-invoke inference, and persist the
fresh result under the hash, overwriting any prior entry. -/
theorem C2_cache_semantics :
    (∀ (h : String) (c : Cache) (d : ExtractedData)
        (infer : Option ExtractedData),
      cacheGet c h = some (CacheEntry.valid d) →
        extract_file false h c infer = ⟨some d, 0, c⟩ ∧
        extract_data false h c infer = ⟨Except.ok (some d), 0, c⟩) ∧
    (∀ (h : String) (c : Cache) (infer : Option ExtractedData),
      cacheGet c h = some CacheEntry.corrupt →
        (extract_file false h c infer).inference_calls = 1 ∧
        (extract_file false h c infer).result = infer) ∧
    (∀ (h : String) (c : Cache) (infer : Option ExtractedData),
      cacheGet c h = some CacheEntry.corrupt →
        (extract_data false h c infer).result =
          Except.error "json.JSONDecodeError" ∧
        (extract_data false h c infer).inference_calls = 0) ∧
    (∀ (h : String) (c : Cache) (d : ExtractedData),
      extract_file true h c (some d) = ⟨some d, 1, cachePut c h d⟩ ∧
      extract_data true h c (some d) = ⟨Except.ok (some d), 1, cachePut c h d⟩ ∧
      cacheGet (cachePut c h d) h = some (CacheEntry.valid d)) := by
  refine ⟨?_, ?_, ?_, ?_⟩
  · intro h c d infer hget
    constructor
    · show (match false, cacheGet c h with
        | false, some (CacheEntry.valid d) => (⟨some d, 0, c⟩ : ExtractOutcome)
        | _, _ =>
          match infer with
          | some d => ⟨some d, 1, cachePut c h d⟩
          | none => ⟨none, 1, c⟩) = ⟨some d, 0, c⟩
      rw [hget]
    · show (match false, cacheGet c h with
        | false, some (CacheEntry.valid d) =>
            (⟨Except.ok (some d), 0, c⟩ : TermExtractOutcome)
        | false, some CacheEntry.corrupt =>
            ⟨Except.error "json.JSONDecodeError", 0, c⟩
        | _, _ =>
          match infer with
          | some d => ⟨Except.ok (some d), 1, cachePut c h d⟩
          | none => ⟨Except.ok none, 1, c⟩) = ⟨Except.ok (some d), 0, c⟩
      rw [hget]
  · intro h c infer hget
    cases infer with
    | none =>
      constructor <;> · show _ = _; unfold extract_file; rw [hget]
    | some d =>
      constructor <;> · show _ = _; unfold extract_file; rw [hget]
  · intro h c infer hget
    cases infer with
    | none =>
      constructor <;> · show _ = _; unfold extract_data; rw [hget]
    | some d =>
      constructor <;> · show _ = _; unfold extract_data; rw [hget]
  · intro h c d
    refine ⟨?_, ?_, cacheGet_cachePut c h d⟩
    · unfold extract_file
      cases cacheGet c h with
      | none => rfl
      | some entry => cases entry <;> rfl
    · unfold extract_data
      cases cacheGet c h with
      | none => rfl
      | some entry => cases entry <;> rfl

/-- Concrete instantiation of `C2_cache_semantics`: a valid cached entry for
hash "h1" is returned as-is with zero inference calls by both variants. -/
theorem C2_cache_semantics_witness :
    extract_file false "h1" [("h1", CacheEntry.valid sampleDoc)] none =
      ⟨some sampleDoc, 0, [("h1", CacheEntry.valid sampleDoc)]⟩ ∧
    extract_data false "h1" [("h1", CacheEntry.valid sampleDoc)] none =
      ⟨Except.ok (some sampleDoc), 0, [("h1", CacheEntry.valid sampleDoc)]⟩ :=
  C2_cache_semantics.1 "h1" [("h1", CacheEntry.valid sampleDoc)] sampleDoc
    none rfl

/-- A destination path, structurally: containing directory, base file name
(the joined name parts), optional collision counter (the `_1`, `_2`, ...
suffix appended by the collision loop), and extension.  The code compares
rendered path strings; for a fixed directory and base name the rendered
candidates `base.ext`, `base_1.ext`, `base_2.ext`, ... are pairwise distinct
strings, so structural equality coincides with string equality throughout
one collision-resolution loop. -/
structure DestPath where
  dir : String
  base : String
  suffix : Option ℕ
  ext : String
deriving Repr, DecidableEq

/-- Rendering a structural destination path to the string stored in the
result dict (`str(dest_path)`). -/
def renderDest (p : DestPath) : String :=
  p.dir ++ "/" ++ p.base ++
    (match p.suffix with
     | none => ""
     | some i => "_" ++ toString i) ++ p.ext

/-- The filesystem as seen by the organizer: files (destination path mapped
to a content identifier — equal identifiers mean byte-identical content) and
the list of directories that exist. -/
structure FSState where
  files : List (DestPath × ℕ)
  dirs : List String
deriving Repr, DecidableEq

/-- `dest_path.exists()`. -/
def fileExists (fs : FSState) (p : DestPath) : Bool :=
  fs.files.any (fun q => q.1 == p)

/-- Python `str.strip()`: drop leading and trailing whitespace.  Implemented
on the character list (`String.trim` is byte-position based and does not
reduce in the kernel). -/
def pyStrip (s : String) : String :=
  ((s.toList.dropWhile Char.isWhitespace).reverse.dropWhile
    Char.isWhitespace).reverse.asString

/-- Python `str.replace(' ', '_')`. -/
def spacesToUnderscores (s : String) : String :=
  (s.toList.map (fun ch => if ch == ' ' then '_' else ch)).asString

/-- `sanitize_filename` of `src/coworker/core/organize.py` lines 10-14:
drop filesystem-illegal characters, strip, spaces to underscores, truncate
to 50 characters. -/
def sanitize_filename (name : String) : String :=
  let dropped :=
    (name.toList.filter
      (fun ch => !(['<', '>', ':', '\"', '/', '\\', '|', '?', '*'].contains ch))).asString
  ((spacesToUnderscores (pyStrip dropped)).take 50)

/-- A Python `x or dflt` over an optional string. -/
def pyStrOr (x : Option String) (dflt : String) : String :=
  if pyStrTruthy x then x.getD dflt else dflt

/-- Destination directory computation of `organize_file`
(`src/coworker/core/organize.py` lines 37-53): review results go to
`Review/<sanitized reason>`, others to `Organized/<YYYY-MM or
Unknown_Date>/<doc type>`.  `ws_review` and `ws_organized` are the workspace
roots. -/
def targetDir (ws_review ws_organized : String) (data : ExtractedData) : String :=
  if data.is_review_needed then
    ws_review ++ "/" ++ sanitize_filename (pyStrOr data.review_reason "Review")
  else
    let date_folder :=
      if pyStrTruthy data.doc_date then (data.doc_date.getD "").take 7
      else "Unknown_Date"
    ws_organized ++ "/" ++ date_folder ++ "/" ++ data.doc_type

/-- Base-name computation of `organize_file`
(`src/coworker/core/organize.py` lines 55-72): date, category, sanitized
merchant, amount plus currency, and the first 8 characters of the hash,
joined with `__`.  Numeric rendering of the amount is abstracted by
`toString`. -/
def baseName (data : ExtractedData) (f_hash : String) : String :=
  let amt :=
    if pyNumTruthy data.total_amount then toString (data.total_amount.getD 0)
    else "0"
  let curr := if pyStrTruthy data.currency then data.currency.getD "" else ""
  String.intercalate "__"
    [ (if pyStrTruthy data.doc_date then data.doc_date.getD "" else "Unknown"),
      data.doc_type,
      (if pyStrTruthy data.merchant then
        sanitize_filename (data.merchant.getD "") else "Unknown"),
      amt ++ curr,
      f_hash.take 8 ]

/-- Candidate destinations in the order the collision loop of
`src/coworker/core/organize.py` lines 78-83 probes them: the un-suffixed
name first, then suffixes 1, 2, .... -/
def destCandidates (dir base ext : String) (n : ℕ) : List DestPath :=
  ⟨dir, base, none, ext⟩ ::
    (List.range n).map (fun i => ⟨dir, base, some (i + 1), ext⟩)

/-- The collision loop (lines 78-83): starting from the computed
destination, append `_1`, `_2`, ... sequentially until a name that does not
exist is found.  The while loop always terminates because the filesystem is
finite; probing `fs.files.length + 1` suffixed candidates is always enough
(proved below), so the bounded search is an exact model of the loop. -/
def resolveDest (fs : FSState) (dir base ext : String) : Option DestPath :=
  (destCandidates dir base ext (fs.files.length + 1)).find?
    (fun p => !(fileExists fs p))

/-- Result dict of an organize call plus the filesystem afterwards. -/
structure OrganizeResult where
  fs : FSState
  status : String
  dst : String
deriving Repr

/-- `organize_file` of `src/coworker/core/organize.py` (lines 21-97) for a
source file with extension `src_ext` and content identifier `content`.
Dry-run returns `FileStatus.SKIPPED` with the literal string "dry-run" as
`dst` and touches nothing.  Otherwise the target directory is created, the
collision loop picks the first free name, and the content is placed there
(`shutil.move` and `shutil.copy2` both materialise `content` at the chosen
destination; the removal of the source in move mode happens outside the
destination tree modelled by `fs.files`).  The enum values of `FileStatus`
are their string values. -/
def organize_file_cw (fs : FSState) (src_ext : String) (data : ExtractedData)
    (f_hash : String) (content : ℕ) (dry_run : Bool)
    (ws_review ws_organized : String) : OrganizeResult :=
  let dir := targetDir ws_review ws_organized data
  let base := baseName data f_hash
  if dry_run then ⟨fs, "skipped", "dry-run"⟩
  else
    let fs1 : FSState := ⟨fs.files, dir :: fs.dirs⟩
    match resolveDest fs1 dir base src_ext with
    | some p => ⟨⟨(p, content) :: fs1.files, fs1.dirs⟩, "organized", renderDest p⟩
    | none => ⟨fs1, "organized", ""⟩

/-- `needs_review` of `terminal_coworker/core/organize.py` lines 7-14. -/
def needs_review (doc : ExtractedData) : Bool :=
  if doc.confidence < 7/10 then true
  else if !pyStrTruthy doc.doc_date || doc.uncertain_fields.contains "doc_date" then
    true
  else if !pyNumTruthy doc.total_amount ||
      doc.uncertain_fields.contains "total_amount" then true
  else false

/-- `clean_filename` of `terminal_coworker/core/organize.py` lines 16-20:
falsy input becomes "unknown", otherwise strip, spaces to underscores, keep
only alphanumerics, `-` and `_`. -/
def clean_filename (x : Option String) : String :=
  if !pyStrTruthy x then "unknown"
  else
    ((spacesToUnderscores (pyStrip (x.getD ""))).toList.filter
      (fun ch => ch.isAlphanum || ch == '-' || ch == '_')).asString

/-- `get_target_path` of `terminal_coworker/core/organize.py` lines 22-54.
For a truthy date the year / year-month folders come from parsing
`YYYY-MM-DD`; for such well-formed dates `strftime`-style rendering equals
the first 4 and first 7 characters of the date string, which is how the
folders are modelled (the `ValueError` fallback for truthy but malformed
dates is not modelled).  The amount part uses an `is not None` check, not
truthiness. -/
def get_target_path_tc (project : String) (doc : ExtractedData)
    (original_ext : String) (file_hash : String) : DestPath :=
  let dir :=
    if pyStrTruthy doc.doc_date then
      project ++ "/files/" ++ (doc.doc_date.getD "").take 4 ++ "/" ++
        (doc.doc_date.getD "").take 7 ++ "/" ++ doc.doc_type
    else project ++ "/files/unknown_date/" ++ doc.doc_type
  let date_part :=
    if pyStrTruthy doc.doc_date then doc.doc_date.getD "" else "unknown_date"
  let amount_part :=
    match doc.total_amount with
    | none => "unknown"
    | some a =>
      toString a ++ (if pyStrTruthy doc.currency then clean_filename doc.currency
                     else "")
  let new_base := date_part ++ "__" ++ doc.doc_type ++ "__" ++
    clean_filename doc.merchant ++ "__" ++ amount_part ++ "__" ++
    file_hash.take 8
  ⟨dir, new_base, none, original_ext⟩

/-- Placing a file at `p` with `shutil.move` / `shutil.copy2` when no
existence check is made: any file already at `p` is replaced. -/
def placeOverwriting {α : Type} [BEq α] (files : List (α × ℕ)) (p : α)
    (c : ℕ) : List (α × ℕ) :=
  (p, c) :: files.filter (fun q => !(q.1 == p))

/-- `organize_file` of `terminal_coworker/core/organize.py` lines 56-92 for
a source file with extension `src_ext` and content `content`.  Dry-run
returns status "dry_run" with the rendered computed target and touches
nothing.  Otherwise the parent directory is created and the file is moved or
copied to the computed target with no collision check (overwriting whatever
is there); a review-needed result is additionally copied into
`files/needs_review` (also overwriting). -/
def organize_file_tc (fs : FSState) (src_ext : String) (doc : ExtractedData)
    (project : String) (file_hash : String) (content : ℕ)
    (dry_run : Bool) : OrganizeResult :=
  let target := get_target_path_tc project doc src_ext file_hash
  let is_review := needs_review doc
  if dry_run then ⟨fs, "dry_run", renderDest target⟩
  else
    let files1 := placeOverwriting fs.files target content
    let reviewDir := project ++ "/files/needs_review"
    let files2 :=
      if is_review then
        placeOverwriting files1 ⟨reviewDir, target.base, target.suffix, target.ext⟩ content
      else files1
    let dirs2 :=
      if is_review then reviewDir :: target.dir :: fs.dirs else target.dir :: fs.dirs
    ⟨⟨files2, dirs2⟩, if is_review then "needs_review" else "sorted",
      renderDest target⟩

theorem destCandidates_length (dir base ext : String) (n : ℕ) :
    (destCandidates dir base ext n).length = n + 1 := by
  simp [destCandidates]

theorem destCandidates_nodup (dir base ext : String) (n : ℕ) :
    (destCandidates dir base ext n).Nodup := by
  unfold destCandidates
  rw [List.nodup_cons]
  constructor
  · intro hmem
    simp only [List.mem_map, List.mem_range] at hmem
    obtain ⟨i, _, hi⟩ := hmem
    have := congrArg DestPath.suffix hi
    simp at this
  · refine List.Nodup.map ?_ (List.nodup_range n)
    intro i j hij
    have := congrArg DestPath.suffix hij
    simpa using this

theorem fileExists_iff (fs : FSState) (p : DestPath) :
    fileExists fs p = true ↔ p ∈ fs.files.map Prod.fst := by
  simp only [fileExists, List.any_eq_true, List.mem_map, beq_iff_eq]

theorem resolveDest_isSome (fs : FSState) (dir base ext : String) :
    ∃ p, resolveDest fs dir base ext = some p := by
  cases hf : resolveDest fs dir base ext with
  | some p => exact ⟨p, rfl⟩
  | none =>
    exfalso
    unfold resolveDest at hf
    rw [List.find?_eq_none] at hf
    have hsub : destCandidates dir base ext (fs.files.length + 1) ⊆
        fs.files.map Prod.fst := by
      intro x hx
      have hx2 := hf x hx
      simp only [Bool.not_eq_true'] at hx2
      exact (fileExists_iff fs x).1 (by simpa using hx2)
    have h2 : (destCandidates dir base ext (fs.files.length + 1)).toFinset ⊆
        (fs.files.map Prod.fst).toFinset := by
      intro x hx
      rw [List.mem_toFinset] at hx ⊢
      exact hsub hx
    have h1 : (destCandidates dir base ext (fs.files.length + 1)).toFinset.card =
        fs.files.length + 2 := by
      rw [List.toFinset_card_of_nodup (destCandidates_nodup dir base ext _),
        destCandidates_length]
    have h3 : (fs.files.map Prod.fst).toFinset.card ≤ fs.files.length := by
      calc (fs.files.map Prod.fst).toFinset.card
        ≤ (fs.files.map Prod.fst).length := List.toFinset_card_le _
        _ = fs.files.length := List.length_map _ _
    have h4 := Finset.card_le_card h2
    omega

theorem resolveDest_free (fs : FSState) (dir base ext : String) (p : DestPath)
    (hp : resolveDest fs dir base ext = some p) :
    fileExists fs p = false := by
  unfold resolveDest at hp
  have := List.find?_some hp
  simpa using this

theorem organize_file_cw_step (fs : FSState) (src_ext : String)
    (data : ExtractedData) (f_hash : String) (content : ℕ)
    (wsr wso : String) :
    ∃ p, fileExists fs p = false ∧
      (organize_file_cw fs src_ext data f_hash content false wsr wso).fs.files =
        (p, content) :: fs.files := by
  obtain ⟨p, hp⟩ := resolveDest_isSome
    ⟨fs.files, targetDir wsr wso data :: fs.dirs⟩
    (targetDir wsr wso data) (baseName data f_hash) src_ext
  refine ⟨p, resolveDest_free _ _ _ _ _ hp, ?_⟩
  unfold organize_file_cw
  simp only [Bool.false_eq_true, if_false, hp]

/-- Organizing a batch of source files that all compute the same destination
name (`contents` is their list of content identifiers), with the filesystem
threaded through: the organize stage of the pipeline applied to colliding
files. -/
def organizeBatch (fs : FSState) (src_ext : String) (data : ExtractedData)
    (f_hash : String) (wsr wso : String) (contents : List ℕ) : FSState :=
  contents.foldl
    (fun acc c => (organize_file_cw acc src_ext data f_hash c false wsr wso).fs)
    fs

theorem organizeBatch_contents (src_ext : String) (data : ExtractedData)
    (f_hash : String) (wsr wso : String) (contents : List ℕ) (fs : FSState) :
    (organizeBatch fs src_ext data f_hash wsr wso contents).files.map Prod.snd =
      contents.reverse ++ fs.files.map Prod.snd := by
  induction contents generalizing fs with
  | nil => simp [organizeBatch]
  | cons c cs ih =>
    obtain ⟨p, _, hstep⟩ :=
      organize_file_cw_step fs src_ext data f_hash c wsr wso
    have : organizeBatch fs src_ext data f_hash wsr wso (c :: cs) =
        organizeBatch (organize_file_cw fs src_ext data f_hash c false wsr wso).fs
          src_ext data f_hash wsr wso cs := rfl
    rw [this, ih, hstep]
    simp

theorem organizeBatch_nodup (src_ext : String) (data : ExtractedData)
    (f_hash : String) (wsr wso : String) (contents : List ℕ) (fs : FSState)
    (h : (fs.files.map Prod.fst).Nodup) :
    ((organizeBatch fs src_ext data f_hash wsr wso contents).files.map
      Prod.fst).Nodup := by
  induction contents generalizing fs with
  | nil => exact h
  | cons c cs ih =>
    obtain ⟨p, hfree, hstep⟩ :=
      organize_file_cw_step fs src_ext data f_hash c wsr wso
    have heq : organizeBatch fs src_ext data f_hash wsr wso (c :: cs) =
        organizeBatch (organize_file_cw fs src_ext data f_hash c false wsr wso).fs
          src_ext data f_hash wsr wso cs := rfl
    rw [heq]
    apply ih
    rw [hstep]
    simp only [List.map_cons, List.nodup_cons]
    refine ⟨?_, h⟩
    intro hmem
    rw [← fileExists_iff fs p] at hmem
    rw [hfree] at hmem
    exact absurd hmem (by simp)

/-- A concrete extraction result with all naming fields present (not
review-needed: confident, dated, amounted). -/
def doc0 : ExtractedData :=
  { doc_type := "receipt"
    doc_date := some "2024-01-02"
    merchant := some "Shop"
    total_amount := some 5
    currency := some "USD"
    confidence := 9/10 }

/-- The destination `get_target_path` computes for `doc0` in project "proj"
with extension ".pdf" and hash "aabbccddee". -/
def t0 : DestPath := get_target_path_tc "proj" doc0 ".pdf" "aabbccddee"

/-- C3 counterexample: the terminal_coworker `organize_file` does no
collision check.  With a file (content 7) already at the computed
destination `t0`, organizing a second source file with the same extraction
data (content 9) replaces it: the destination tree ends with one file, not
two, and content 7 is gone — the claim says suffixes are appended and
nothing is ever overwritten. -/
theorem C3_counterexample :
    fileExists ⟨[(t0, 7)], []⟩ t0 = true ∧
    (organize_file_tc ⟨[(t0, 7)], []⟩ ".pdf" doc0 "proj" "aabbccddee" 9
        false).fs.files = [(t0, 9)] ∧
    (t0, 7) ∉ (organize_file_tc ⟨[(t0, 7)], []⟩ ".pdf" doc0 "proj"
        "aabbccddee" 9 false).fs.files := by
  have hnr : needs_review doc0 = false := by
    norm_num [needs_review, doc0, pyStrTruthy, pyNumTruthy]
    decide
  have hfiles : (organize_file_tc ⟨[(t0, 7)], []⟩ ".pdf" doc0 "proj"
      "aabbccddee" 9 false).fs.files = [(t0, 9)] := by
    simp [organize_file_tc, hnr, placeOverwriting, t0]
  refine ⟨by decide, hfiles, ?_⟩
  rw [hfiles]
  simp

/-- C3 (amended): the coworker variant (`src/coworker/core/organize.py`)
behaves as claimed: if the computed destination exists it probes `_1`, `_2`,
... in order and takes the first free name (in particular the un-suffixed
name when free), never overwrites an existing file, and organizing N
colliding files yields N distinct destination files with no lost content.
The terminal_coworker variant performs no collision handling and overwrites
an existing destination file. -/
theorem C3_collision_policy :
    (∀ (fs : FSState) (dir base ext : String),
      fileExists fs ⟨dir, base, none, ext⟩ = false →
        resolveDest fs dir base ext = some ⟨dir, base, none, ext⟩) ∧
    (∀ (fs : FSState) (src_ext : String) (data : ExtractedData)
        (f_hash : String) (content : ℕ) (wsr wso : String),
      ∃ p, fileExists fs p = false ∧
        (organize_file_cw fs src_ext data f_hash content false wsr
          wso).fs.files = (p, content) :: fs.files) ∧
    (∀ (fs : FSState) (src_ext : String) (data : ExtractedData)
        (f_hash : String) (wsr wso : String) (contents : List ℕ),
      (organizeBatch fs src_ext data f_hash wsr wso contents).files.map
        Prod.snd = contents.reverse ++ fs.files.map Prod.snd) ∧
    (∀ (fs : FSState) (src_ext : String) (data : ExtractedData)
        (f_hash : String) (wsr wso : String) (contents : List ℕ),
      (fs.files.map Prod.fst).Nodup →
        ((organizeBatch fs src_ext data f_hash wsr wso contents).files.map
          Prod.fst).Nodup) := by
  refine ⟨?_, ?_, ?_, ?_⟩
  · intro fs dir base ext h
    unfold resolveDest destCandidates
    rw [List.find?_cons_of_pos _ (by simp [h])]
  · intro fs src_ext data f_hash content wsr wso
    exact organize_file_cw_step fs src_ext data f_hash content wsr wso
  · intro fs src_ext data f_hash wsr wso contents
    exact organizeBatch_contents src_ext data f_hash wsr wso contents fs
  · intro fs src_ext data f_hash wsr wso contents h
    exact organizeBatch_nodup src_ext data f_hash wsr wso contents fs h

/-- Concrete instantiation of `C3_collision_policy`: organizing three
colliding files onto an empty filesystem yields three distinct destination
paths. -/
theorem C3_collision_policy_witness :
    ((organizeBatch ⟨[], []⟩ ".pdf" doc0 "aabbccddee" "Review" "Organized"
      [1, 2, 3]).files.map Prod.fst).Nodup :=
  C3_collision_policy.2.2.2 ⟨[], []⟩ ".pdf" doc0 "aabbccddee" "Review"
    "Organized" [1, 2, 3] (by simp)

/-- C7 counterexample: in the coworker variant, a dry-run organize returns
the literal string "dry-run" in the `dst` field, not the computed
destination path the non-dry run would use (here, the free un-suffixed
name). -/
theorem C7_counterexample :
    (organize_file_cw ⟨[], []⟩ ".pdf" doc0 "aabbccddee" 5 true "Review"
        "Organized").dst = "dry-run" ∧
    resolveDest ⟨[], ["Organized/2024-01/receipt"]⟩
        (targetDir "Review" "Organized" doc0) (baseName doc0 "aabbccddee")
        ".pdf" =
      some ⟨targetDir "Review" "Organized" doc0, baseName doc0 "aabbccddee",
        none, ".pdf"⟩ ∧
    (organize_file_cw ⟨[], []⟩ ".pdf" doc0 "aabbccddee" 5 true "Review"
        "Organized").dst ≠
      renderDest ⟨targetDir "Review" "Organized" doc0,
        baseName doc0 "aabbccddee", none, ".pdf"⟩ := by
  refine ⟨rfl, ?_, ?_⟩ <;> decide

/-- C7 (amended): dry-run performs no filesystem mutation in either variant
(no directory created, nothing copied or moved).  The terminal_coworker
variant returns a simulated "dry_run" status together with the computed
destination path; the coworker variant returns the Skipped status but the
literal string "dry-run" in place of the computed destination. -/
theorem C7_dry_run :
    (∀ (fs : FSState) (src_ext : String) (data : ExtractedData)
        (f_hash : String) (content : ℕ) (wsr wso : String),
      (organize_file_cw fs src_ext data f_hash content true wsr wso).fs = fs ∧
      (organize_file_cw fs src_ext data f_hash content true wsr wso).status =
        "skipped" ∧
      (organize_file_cw fs src_ext data f_hash content true wsr wso).dst =
        "dry-run") ∧
    (∀ (fs : FSState) (src_ext : String) (doc : ExtractedData)
        (project f_hash : String) (content : ℕ),
      (organize_file_tc fs src_ext doc project f_hash content true).fs = fs ∧
      (organize_file_tc fs src_ext doc project f_hash content true).status =
        "dry_run" ∧
      (organize_file_tc fs src_ext doc project f_hash content true).dst =
        renderDest (get_target_path_tc project doc src_ext f_hash)) := by
  constructor
  · intro fs src_ext data f_hash content wsr wso
    exact ⟨rfl, rfl, rfl⟩
  · intro fs src_ext doc project f_hash content
    exact ⟨rfl, rfl, rfl⟩

/-- A service response as classified by the retry loop of `extract_data`
(`terminal_coworker/core/extract.py` lines 57-92): `ok` carries the parsed
document, `transient` is an exception whose text contains "429" or
"RESOURCE_EXHAUSTED", `fatal` is any other exception. -/
inductive SvcResp
  | ok (d : ExtractedData)
  | transient
  | fatal
deriving Repr, DecidableEq

/-- `base_delay = 2` seconds (line 59). -/
def base_delay : ℚ := 2

/-- `max_retries = 3` (line 58). -/
def max_retries : ℕ := 3

/-- The retry loop body (`for attempt in range(max_retries)` at lines
61-89).  `svc i` is the service behaviour at attempt `i`, `jit i` the value
`random.uniform(0, 1)` draws there.  Returns the result, the number of
attempts made, and the list of back-off sleeps performed in order
(`base_delay * 2 ** attempt + jitter`); the code also sleeps after a
transient failure of the final attempt, then falls out of the loop and
returns `None`.  A non-transient exception returns `None` immediately; a
success returns the parsed result. -/
def retryGo (svc : ℕ → SvcResp) (jit : ℕ → ℚ) :
    ℕ → ℕ → Option ExtractedData × ℕ × List ℚ
  | _, 0 => (none, 0, [])
  | attempt, rem + 1 =>
    match svc attempt with
    | SvcResp.ok d => (some d, 1, [])
    | SvcResp.fatal => (none, 1, [])
    | SvcResp.transient =>
      let delay := base_delay * 2 ^ attempt + jit attempt
      let next := retryGo svc jit (attempt + 1) rem
      (next.1, next.2.1 + 1, delay :: next.2.2)

/-- The whole retry loop of one `extract_data` service interaction. -/
def extract_data_retry (svc : ℕ → SvcResp) (jit : ℕ → ℚ) :
    Option ExtractedData × ℕ × List ℚ :=
  retryGo svc jit 0 max_retries

/-- The per-file loop of the extract stage (`terminal_coworker/main.py`
extract_cmd lines 90-106): each file is attempted independently and gets
exactly one status — a `None` result (exhausted retries or a fatal error)
is recorded as "error" and the loop moves on to the next file. -/
def extractBatchStatuses (files : List (ℕ → SvcResp)) (jit : ℕ → ℚ) :
    List String :=
  files.map (fun svc =>
    if (extract_data_retry svc jit).1.isSome then "extracted" else "error")

/-- C5: on a transient service error the client retries up to 3 attempts
with delay `base * 2 ^ attempt + jitter`; against an always-transient
service it makes exactly 3 attempts, with strictly increasing delays
whenever each jitter lies in [0, 1); exhausting retries yields an error
outcome for that file only (the batch records one status per file and
continues); a non-transient error fails immediately with no retry and no
back-off sleep. -/
theorem C5_retry_policy :
    (∀ (svc : ℕ → SvcResp) (jit : ℕ → ℚ),
      (extract_data_retry svc jit).2.1 ≤ max_retries) ∧
    (∀ jit : ℕ → ℚ,
      extract_data_retry (fun _ => SvcResp.transient) jit =
        (none, 3, [2 + jit 0, 4 + jit 1, 8 + jit 2])) ∧
    (∀ jit : ℕ → ℚ, (∀ i, 0 ≤ jit i ∧ jit i < 1) →
      List.Chain' (fun a b => a < b)
        (extract_data_retry (fun _ => SvcResp.transient) jit).2.2) ∧
    (∀ (svc : ℕ → SvcResp) (jit : ℕ → ℚ), svc 0 = SvcResp.fatal →
      extract_data_retry svc jit = (none, 1, [])) ∧
    (∀ (files : List (ℕ → SvcResp)) (jit : ℕ → ℚ),
      (extractBatchStatuses files jit).length = files.length) := by
  refine ⟨?_, ?_, ?_, ?_, ?_⟩
  · intro svc jit
    show (retryGo svc jit 0 max_retries).2.1 ≤ max_retries
    have hgen : ∀ (rem attempt : ℕ),
        (retryGo svc jit attempt rem).2.1 ≤ rem := by
      intro rem
      induction rem with
      | zero => intro attempt; simp [retryGo]
      | succ n ih =>
        intro attempt
        cases hs : svc attempt with
        | ok d => simp [retryGo, hs]
        | fatal => simp [retryGo, hs]
        | transient =>
          simp only [retryGo, hs]
          have := ih (attempt + 1)
          omega
    exact hgen max_retries 0
  · intro jit
    show retryGo _ jit 0 max_retries = _
    simp only [max_retries, retryGo, base_delay]
    norm_num
  · intro jit hj
    have h2 : extract_data_retry (fun _ => SvcResp.transient) jit =
        (none, 3, [2 + jit 0, 4 + jit 1, 8 + jit 2]) := by
      show retryGo _ jit 0 max_retries = _
      simp only [max_retries, retryGo, base_delay]
      norm_num
    rw [h2]
    simp only [List.chain'_cons, List.chain'_singleton, and_true]
    obtain ⟨h00, h01⟩ := hj 0
    obtain ⟨h10, h11⟩ := hj 1
    obtain ⟨h20, h21⟩ := hj 2
    constructor <;> linarith
  · intro svc jit hs
    show retryGo svc jit 0 max_retries = _
    simp [max_retries, retryGo, hs]
  · intro files jit
    simp [extractBatchStatuses]

/-- Concrete instantiation of `C5_retry_policy`: with zero jitter the
always-transient service produces exactly the delays 2, 4, 8, strictly
increasing. -/
theorem C5_retry_policy_witness :
    List.Chain' (fun a b => a < b)
      (extract_data_retry (fun _ => SvcResp.transient) (fun _ => 0)).2.2 :=
  C5_retry_policy.2.2.1 (fun _ => 0) (fun _ => by norm_num)

/-- The body of a service response as seen by the parse step of
`Extractor.extract_file` (`src/coworker/core/extract.py` lines 130-146):
either text that json-parses and pydantic-validates as `ExtractedData`, or
malformed text. -/
inductive RawResponse
  | parses (d : ExtractedData)
  | malformed
deriving Repr, DecidableEq

/-- Lines 134-146: parse and validate the response; on `json.JSONDecodeError`
or `ValidationError` build the synthetic fallback record instead of raising. -/
def parseResponse : RawResponse → ExtractedData
  | RawResponse.parses d => d
  | RawResponse.malformed =>
    { doc_type := "Other"
      summary := some "Extraction failed to parse"
      confidence := 0
      uncertain_fields := ["all"]
      is_review_needed := true
      review_reason := some "Parse Error" }

/-- The full response handling of `extract_file`: parse with fallback, then
the review post-processing; a total function, so exactly one outcome record
leaves the inference-client boundary per attempted file and no parse
exception ever crosses it. -/
def handleResponse (r : RawResponse) : ExtractedData :=
  postProcessReview (parseResponse r)

/-- C6: a malformed service response is converted into a synthetic result
with document type "Other", confidence 0, review-needed true and reason
"Parse Error", never raised as an exception across the boundary; the final
outcome record for such a file still has type "Other", confidence 0 and the
review flag (post-processing then re-derives the reason from the missing
fields), and every attempted file yields exactly one outcome record. -/
theorem C6_parse_error_fallback :
    (parseResponse RawResponse.malformed).doc_type = "Other" ∧
    (parseResponse RawResponse.malformed).confidence = 0 ∧
    (parseResponse RawResponse.malformed).is_review_needed = true ∧
    (parseResponse RawResponse.malformed).review_reason = some "Parse Error" ∧
    (handleResponse RawResponse.malformed).doc_type = "Other" ∧
    (handleResponse RawResponse.malformed).confidence = 0 ∧
    (handleResponse RawResponse.malformed).is_review_needed = true ∧
    (∀ rs : List RawResponse, (rs.map handleResponse).length = rs.length) := by
  have hr : reviewReasons (parseResponse RawResponse.malformed) =
      ["Missing Date", "Missing Amount"] := by
    simp [reviewReasons, parseResponse, pyStrTruthy, pyNumTruthy]
  have hcap := capStage_of_reasons (parseResponse RawResponse.malformed)
    ["Missing Date", "Missing Amount"] hr (by simp)
  have hlt : (capStage (parseResponse RawResponse.malformed)).confidence <
      7/10 := capStage_confidence_lt _ (by simp [hr])
  obtain ⟨hn, hrr, hc⟩ := lowConfStage_of_lt _ hlt
  refine ⟨rfl, rfl, rfl, rfl, ?_, ?_, hn, fun rs => by simp⟩
  · show (lowConfStage (capStage (parseResponse RawResponse.malformed))).doc_type
      = "Other"
    have : (lowConfStage (capStage (parseResponse RawResponse.malformed))) =
        { (capStage (parseResponse RawResponse.malformed)) with
          is_review_needed := true,
          review_reason :=
            if !pyStrTruthy (capStage (parseResponse RawResponse.malformed)).review_reason
            then some "Low Confidence"
            else (capStage (parseResponse RawResponse.malformed)).review_reason } := by
      rw [lowConfStage, if_pos hlt]
    rw [this, hcap]
    rfl
  · show (lowConfStage (capStage (parseResponse RawResponse.malformed))).confidence
      = 0
    rw [hc, hcap]
    show min (parseResponse RawResponse.malformed).confidence (6/10) = 0
    rw [show (parseResponse RawResponse.malformed).confidence = 0 from rfl]
    norm_num

/-- A workspace-root-relative path, as its list of components. -/
abbrev RelPath := List String

/-- A manifest line (`coworker.core.models.ManifestEntry`); the `ts` and
`kind` and `details` fields carry no verified content and are omitted. -/
structure ManifestEntry where
  event : String
  hash : String
  src : String
  status : String
  dst : Option String := none
deriving Repr, DecidableEq

/-- The state the undo command operates on: the trash staging area
(`.coworker/trash/<run_id>/` mapped to the run mirror tree of
root-relative paths), the workspace tree (root-relative path to content
id), and the manifest. -/
structure UndoState where
  trash : List (String × List (RelPath × ℕ))
  wsFiles : List (RelPath × ℕ)
  manifest : List ManifestEntry
deriving Repr

/-- Rendering a root-relative path under a root, for manifest strings. -/
def renderRel (root : String) (p : RelPath) : String :=
  String.intercalate "/" (root :: p)

/-- The "undo" manifest entry logged per restored file
(`cli.py` line 149). -/
def undoEntry (root run_id : String) (pf : RelPath × ℕ) : ManifestEntry :=
  { event := "undo"
    hash := "N/A"
    src := renderRel (root ++ "/.coworker/trash/" ++ run_id) pf.1
    status := "restored"
    dst := some (renderRel root pf.1) }

/-- The `undo` command of `src/coworker/cli.py` lines 100-155 for an
explicitly given run id.  When `trash/<run_id>` does not exist the command
prints and exits with code 1 (line 124-126).  Otherwise it walks the run
tree; for each file it creates parent directories, moves the file back to
`workspaceRoot / relativePath` (replacing anything there, as `shutil.move`
does), and appends an "undo" manifest entry with status "restored"; finally
the whole run directory is removed (`shutil.rmtree`, line 154). -/
def undo (st : UndoState) (run_id : String) (root : String) :
    Except ℕ UndoState :=
  match st.trash.find? (fun r => r.1 == run_id) with
  | none => Except.error 1
  | some run =>
    Except.ok
      { trash := st.trash.filter (fun r => !(r.1 == run_id))
        wsFiles := run.2.foldl
          (fun acc pf => placeOverwriting acc pf.1 pf.2) st.wsFiles
        manifest := st.manifest ++ run.2.map (undoEntry root run_id) }

theorem placeOverwriting_mem_of_ne {α : Type} [BEq α] [LawfulBEq α]
    (files : List (α × ℕ)) (p : α) (c : ℕ) (q : α × ℕ) (hq : q ∈ files)
    (hne : q.1 ≠ p) : q ∈ placeOverwriting files p c :=
  List.mem_cons_of_mem _ (List.mem_filter.mpr ⟨hq, by simp [hne]⟩)

theorem foldl_place_preserves {α : Type} [BEq α] [LawfulBEq α]
    (files : List (α × ℕ)) (acc : List (α × ℕ)) (q : α × ℕ)
    (hq : q ∈ acc) (hnk : q.1 ∉ files.map Prod.fst) :
    q ∈ files.foldl (fun a pf => placeOverwriting a pf.1 pf.2) acc := by
  induction files generalizing acc with
  | nil => exact hq
  | cons f fs ih =>
    simp only [List.map_cons, List.mem_cons, not_or] at hnk
    exact ih (placeOverwriting acc f.1 f.2)
      (placeOverwriting_mem_of_ne acc f.1 f.2 q hq hnk.1) hnk.2

theorem foldl_place_restores {α : Type} [BEq α] [LawfulBEq α]
    (files : List (α × ℕ)) (acc : List (α × ℕ))
    (hnodup : (files.map Prod.fst).Nodup) :
    ∀ q ∈ files, q ∈ files.foldl (fun a pf => placeOverwriting a pf.1 pf.2) acc := by
  induction files generalizing acc with
  | nil => simp
  | cons f fs ih =>
    simp only [List.map_cons, List.nodup_cons] at hnodup
    intro q hq
    rcases List.mem_cons.mp hq with hq | hq
    · subst hq
      exact foldl_place_preserves fs (placeOverwriting acc q.1 q.2) q
        (List.mem_cons_self _ _) hnodup.1
    · exact ih (placeOverwriting acc f.1 f.2) hnodup.2 q hq

/-- C4: for a move-mode run with trash staging, `undo(run_id)` walks the run
trash tree and moves every file back to `workspaceRoot / relativePath` with
its content intact, appends one "undo" manifest entry per restored file
(after the untouched prior manifest), and afterwards the run trash directory
no longer exists; undo fails with exit code 1 when the given run id has no
trash directory. -/
theorem C4_undo_round_trip :
    (∀ (st : UndoState) (run_id root : String),
      st.trash.find? (fun r => r.1 == run_id) = none →
        undo st run_id root = Except.error 1) ∧
    (∀ (st : UndoState) (run_id root : String)
        (files : List (RelPath × ℕ)),
      st.trash.find? (fun r => r.1 == run_id) = some (run_id, files) →
      (files.map Prod.fst).Nodup →
      ∃ st2, undo st run_id root = Except.ok st2 ∧
        (∀ q ∈ files, q ∈ st2.wsFiles) ∧
        st2.manifest = st.manifest ++ files.map (undoEntry root run_id) ∧
        (∀ m ∈ st2.manifest.drop st.manifest.length, m.event = "undo") ∧
        st2.trash.find? (fun r => r.1 == run_id) = none) := by
  constructor
  · intro st run_id root hnone
    unfold undo
    rw [hnone]
  · intro st run_id root files hfind hnodup
    refine ⟨⟨st.trash.filter (fun r => !(r.1 == run_id)),
      files.foldl (fun acc pf => placeOverwriting acc pf.1 pf.2) st.wsFiles,
      st.manifest ++ files.map (undoEntry root run_id)⟩, ?_, ?_, rfl, ?_, ?_⟩
    · unfold undo
      rw [hfind]
    · exact foldl_place_restores files st.wsFiles hnodup
    · intro m hm
      rw [List.drop_left] at hm
      obtain ⟨pf, _, hpf⟩ := List.mem_map.mp hm
      rw [← hpf]
      rfl
    · rw [List.find?_eq_none]
      intro x hx
      have := (List.mem_filter.mp hx).2
      simpa using this

/-- Concrete instantiation of `C4_undo_round_trip`: undoing run "run1",
whose trash mirrors one file `Inbox/a.pdf` with content 5, restores that
file and leaves no trash entry for "run1". -/
theorem C4_undo_round_trip_witness :
    ∃ st2,
      undo ⟨[("run1", [(["Inbox", "a.pdf"], 5)])], [], []⟩ "run1" "ws" =
        Except.ok st2 ∧
      (∀ q ∈ [(["Inbox", "a.pdf"], 5)], q ∈ st2.wsFiles) ∧
      st2.manifest = [] ++ [(["Inbox", "a.pdf"], 5)].map (undoEntry "ws" "run1") ∧
      (∀ m ∈ st2.manifest.drop (List.length ([] : List ManifestEntry)),
        m.event = "undo") ∧
      st2.trash.find? (fun r => r.1 == "run1") = none :=
  C4_undo_round_trip.2 ⟨[("run1", [(["Inbox", "a.pdf"], 5)])], [], []⟩
    "run1" "ws" [(["Inbox", "a.pdf"], 5)] rfl (by simp)

/-- A candidate file from an ingest scan: its path and its content hash
(identical bytes always hash identically, so equal hash fields model
identical content). -/
structure SrcFile where
  path : String
  hash : String
deriving Repr, DecidableEq

/-- The ingest loop of `run` (`cli.py` lines 283-287): hash every candidate
and append one "ingest" manifest entry per file (not per unique hash). -/
def ingestEntries (files : List SrcFile) : List ManifestEntry :=
  files.map (fun f =>
    { event := "ingest", hash := f.hash, src := f.path, status := "new" })

/-- The extract batch of `run` (`cli.py` lines 298-331).  The per-file
coroutines are launched together with `asyncio.gather`; each coroutine runs
its cache-existence check (extract.py line 41) in the segment before its
first network await, and a cache file is only written after a network
response arrives, so on a single-threaded event loop every check observes
the initial cache state `c0` — a within-run duplicate hash is NOT served
from the cache entry its twin is about to write.  Every file whose check
misses enters the service path (`infer`, one live call); afterwards the loop
at lines 328-331 appends exactly one "extract" manifest entry per file.
Returns (per-file results, live inference calls, extract entries). -/
def gatherExtract (files : List SrcFile) (c0 : Cache) (force : Bool)
    (infer : String → Option ExtractedData) :
    List (Option ExtractedData) × ℕ × List ManifestEntry :=
  let results : List (Option ExtractedData × ℕ) := files.map (fun f =>
    match force, cacheGet c0 f.hash with
    | false, some (CacheEntry.valid d) => (some d, 0)
    | _, _ => (infer f.hash, 1))
  ⟨results.map Prod.fst,
   (results.map Prod.snd).sum,
   List.zipWith (fun (f : SrcFile) (r : Option ExtractedData × ℕ) =>
     { event := "extract", hash := f.hash, src := f.path,
       status := if r.1.isSome then "extracted" else "error" }) files results⟩

/-- The hashes an ingest pass yields, deduplicated. -/
def uniqueHashes (files : List SrcFile) : List String :=
  (files.map (fun f => f.hash)).dedup

/-- `extract_cmd` of `terminal_coworker/main.py` lines 66-106: ingest
entries are folded into a dict keyed by hash, so each unique hash is
extracted once (a live call when the initial cache `c0` misses it; unique
hashes are pairwise distinct, so the sequential cache writes of the loop do
not serve any later unique hash). -/
def extractCmdCalls (files : List SrcFile) (c0 : Cache) (force : Bool) : ℕ :=
  ((uniqueHashes files).filter (fun h =>
    match force, cacheGet c0 h with
    | false, some _ => false
    | _, _ => true)).length

/-- `extract_cmd` appends one "extract" manifest entry per dict key, i.e.
per unique hash. -/
def extractCmdEntries (files : List SrcFile) : ℕ :=
  (uniqueHashes files).length

/-- File A of scenario A. -/
def fileA : SrcFile := ⟨"Inbox/a.jpg", "h1"⟩
/-- File B of scenario A: byte-identical to A, hence the same hash. -/
def fileB : SrcFile := ⟨"Inbox/b.jpg", "h1"⟩
/-- File C of scenario A: distinct content. -/
def fileC : SrcFile := ⟨"Inbox/c.jpg", "h2"⟩

/-- C8 counterexample: in the coworker pipeline (the cited `cli.py` run
command), ingesting scenario A on a cold cache yields the claimed 2 unique
hashes and 3 ingest entries, but the inference client is invoked 3 times
(once per file, not once per unique hash) and the manifest receives 3
extract entries (one per file), not 2. -/
theorem C8_counterexample :
    (uniqueHashes [fileA, fileB, fileC]).length = 2 ∧
    (ingestEntries [fileA, fileB, fileC]).length = 3 ∧
    (gatherExtract [fileA, fileB, fileC] [] false
      (fun _ => some sampleDoc)).2.1 = 3 ∧
    (gatherExtract [fileA, fileB, fileC] [] false
      (fun _ => some sampleDoc)).2.2.length = 3 ∧
    ¬ ((gatherExtract [fileA, fileB, fileC] [] false
      (fun _ => some sampleDoc)).2.1 = 2) ∧
    ¬ ((gatherExtract [fileA, fileB, fileC] [] false
      (fun _ => some sampleDoc)).2.2.length = 2) := by
  refine ⟨rfl, rfl, rfl, rfl, ?_, ?_⟩ <;> decide

/-- C8 (amended): for scenario A (3 candidates, two byte-identical), the
hasher yields exactly 2 unique hashes and the manifest receives exactly 3
ingest entries in both variants.  In the coworker pipeline the inference
client is invoked once per file — 3 times on a cold cache, because all
gathered cache checks precede every cache write — and the manifest receives
one extract entry per file (3).  The claimed counts — inference invoked
exactly twice and exactly 2 extract entries — are realised by the
terminal_coworker variant, whose extract command dedups by hash. -/
theorem C8_scenario_counts :
    (∀ files : List SrcFile, (ingestEntries files).length = files.length) ∧
    (∀ (files : List SrcFile) (c0 : Cache) (force : Bool)
        (infer : String → Option ExtractedData),
      (gatherExtract files c0 force infer).2.2.length = files.length) ∧
    (∀ (files : List SrcFile) (infer : String → Option ExtractedData),
      (gatherExtract files [] false infer).2.1 = files.length) ∧
    (uniqueHashes [fileA, fileB, fileC]).length = 2 ∧
    extractCmdCalls [fileA, fileB, fileC] [] false = 2 ∧
    extractCmdEntries [fileA, fileB, fileC] = 2 := by
  refine ⟨?_, ?_, ?_, rfl, rfl, rfl⟩
  · intro files
    simp [ingestEntries]
  · intro files c0 force infer
    simp [gatherExtract]
  · intro files infer
    show (List.map Prod.snd (files.map (fun f =>
      match false, cacheGet [] f.hash with
      | false, some (CacheEntry.valid d) => ((some d : Option ExtractedData), 0)
      | _, _ => (infer f.hash, 1)))).sum = files.length
    induction files with
    | nil => rfl
    | cons f fs ih =>
      simp only [List.map_cons, List.sum_cons]
      rw [ih]
      show (1 : ℕ) + fs.length = (f :: fs).length
      simp [Nat.add_comm]

/-- The early exit gates of the `run` command (`cli.py` lines 183-294),
modelled down to the no-candidates return of the ingest stage.  `wsValid`
is `Workspace.is_valid()`, `candidates` the number of files the scan yields
(the ad-hoc pre-scan at line 202 and the ingest scan at line 283 enumerate
the same set).  Returns `some code` when the command terminates at one of
these points; `none` means control reaches the extract stage. -/
def runGate (wsValid autoInit dryRun : Bool) (candidates : ℕ) : Option ℕ :=
  if !wsValid && !autoInit then some 1
  else if !wsValid && (candidates == 0) && !dryRun then some 1
  else if candidates == 0 then some 0
  else none

/-- C9 counterexample: in a valid workspace, a non-dry run that finds no
candidate files terminates normally with exit code 0 (`cli.py` lines
292-294 print and `return`), although the claim lists "no candidate files
found and the run is not a dry run" among the non-zero exits. -/
theorem C9_counterexample :
    runGate true true false 0 = some 0 ∧
    runGate true false false 0 = some 0 ∧
    some 0 ≠ (some 1 : Option ℕ) := by
  refine ⟨rfl, rfl, ?_⟩ <;> decide

/-- C9 (amended): the run command terminates non-zero at its gates exactly
when the workspace is invalid and auto-initialization is disabled, or the
workspace is invalid, auto-initialization is enabled (the ad-hoc path) and
no candidate files are found on a non-dry run.  In a valid workspace a run
that finds no candidates terminates with exit code 0.  Undo terminates
non-zero exactly when the given run identifier has no trash directory. -/
theorem C9_exit_conditions :
    (∀ (v a d : Bool) (c : ℕ),
      runGate v a d c = some 1 ↔
        ((v = false ∧ a = false) ∨
         (v = false ∧ a = true ∧ c = 0 ∧ d = false))) ∧
    (∀ (a d : Bool), runGate true a d 0 = some 0) ∧
    (∀ (v a d : Bool) (c : ℕ), c ≠ 0 → (v || a) = true →
      runGate v a d c = none) ∧
    (∀ (st : UndoState) (run_id root : String),
      undo st run_id root = Except.error 1 ↔
        st.trash.find? (fun r => r.1 == run_id) = none) := by
  refine ⟨?_, ?_, ?_, ?_⟩
  · intro v a d c
    cases v <;> cases a <;> cases d <;>
      simp [runGate] <;>
      constructor <;> intro h <;> simp_all
  · intro a d
    cases a <;> cases d <;> rfl
  · intro v a d c hc hva
    cases v <;> cases a <;> simp_all [runGate]
  · intro st run_id root
    unfold undo
    cases hf : st.trash.find? (fun r => r.1 == run_id) with
    | none => simp
    | some run => simp

/-- Concrete instantiation of `C9_exit_conditions`: with one candidate file
present, a valid workspace run passes the gates. -/
theorem C9_exit_conditions_witness :
    runGate true true false 3 = none :=
  C9_exit_conditions.2.2.1 true true false 3 (by decide) rfl

/-- Python keyword-binding semantics for a function with no `**kwargs`
collector: the call raises `TypeError` when some keyword argument is not
among the parameter names. -/
def callRaisesTypeError (params : List String) (kwargs : List String) : Bool :=
  kwargs.any (fun k => !(params.contains k))

/-- The parameter names of `organize_file`
(`src/coworker/core/organize.py` lines 21-28). -/
def organize_file_params : List String :=
  ["src_path", "data", "workspace", "f_hash", "dry_run", "mode"]

/-- The keyword arguments of the `organize.organize_file(...)` call at
`cli.py` line 347. -/
def run_organize_call_kwargs : List String := ["dry_run", "mode", "trash_dir"]

/-- The organize loop of `run` (`cli.py` lines 338-351): iterate the
extraction results, skip `None`s, and call `organize_file` with the
keywords above.  The binding of the keywords happens before the callee body
runs, so an unexpected keyword raises `TypeError` at the first non-`None`
result and the stage aborts there — no trash staging (which would happen
inside the callee) is ever performed. -/
def organizeStage (results : List (Option ExtractedData)) : Except String ℕ :=
  match results with
  | [] => Except.ok 0
  | none :: rest => organizeStage rest
  | some _ :: rest =>
    if callRaisesTypeError organize_file_params run_organize_call_kwargs then
      Except.error "TypeError: unexpected keyword argument trash_dir"
    else
      match organizeStage rest with
      | Except.ok n => Except.ok (n + 1)
      | Except.error e => Except.error e

/-- C10: the organize stage call passes `trash_dir` as a keyword, but
`organize_file` declares no such parameter, so in every run in which at
least one file produces an extraction result the call raises `TypeError`:
the stage cannot complete and the move-mode trash staging is never
performed by this variant. -/
theorem C10_trash_dir_type_error :
    ("trash_dir" ∈ run_organize_call_kwargs ∧
      "trash_dir" ∉ organize_file_params) ∧
    callRaisesTypeError organize_file_params run_organize_call_kwargs = true ∧
    (∀ results : List (Option ExtractedData),
      (∃ r ∈ results, r.isSome) →
        organizeStage results =
          Except.error "TypeError: unexpected keyword argument trash_dir") := by
  refine ⟨⟨by decide, by decide⟩, by decide, ?_⟩
  intro results hex
  induction results with
  | nil => simp at hex
  | cons r rest ih =>
    cases r with
    | some d =>
      show (if callRaisesTypeError organize_file_params
          run_organize_call_kwargs then
            Except.error "TypeError: unexpected keyword argument trash_dir"
          else _) = _
      rw [if_pos (by decide)]
    | none =>
      show organizeStage rest = _
      apply ih
      obtain ⟨x, hx, hsome⟩ := hex
      rcases List.mem_cons.mp hx with hx | hx
      · subst hx
        simp at hsome
      · exact ⟨x, hx, hsome⟩

/-- Concrete instantiation of `C10_trash_dir_type_error`: a batch with one
successful extraction result aborts the organize stage with the
`TypeError`. -/
theorem C10_trash_dir_type_error_witness :
    organizeStage [none, some sampleDoc] =
      Except.error "TypeError: unexpected keyword argument trash_dir" :=
  C10_trash_dir_type_error.2.2 [none, some sampleDoc]
    ⟨some sampleDoc, by simp, rfl⟩

end Coworker
